import Mathlib

/-!
Verification development for the summarization agent of the
`actor-critic-mcp` repository (`src/agents/summarize/agent.py`).

The Python module is shallowly embedded below:

* `JVal` models Python values produced by `json.loads` (the JSON data
  model); number literals are restricted to (optionally signed) integers —
  floats, `NaN`/`Infinity` and surrogate-pair `\uXXXX` escapes are elided,
  none of the verified properties touch them.
* `loads` models `json.loads`, `dumps` models `json.dumps` (the `indent=2`
  layout is elided; no property depends on the serialized text).
* `pyUnfence` models
  `re.sub(r"^\s*BTK(?:json)?\s*|\s*BTK$", "", reply, flags=re.DOTALL)`
  (with BTK the triple-backtick fence) by direct case analysis of that
  pattern: the first alternative is anchored at position 0, the second is
  anchored at the end of the string, `\s*` can never backtrack past a
  non-whitespace character, and `re.DOTALL` is inert since the pattern has
  no dot.
* `firstJsonObject` models `_first_json_object` exactly as written,
  including the `in_str`/`esc` boolean updates.
* `parse_and_normalize_reply`, `summarise` and `main` model the functions
  of the same names; uncaught Python exceptions are modelled as
  `Except.error` with the exception's `str(...)` rendering (JSON error
  positions such as `line 1 column 1 (char 0)` are abbreviated to the
  message text).
-/

/-- Python values that can result from `json.loads`. -/
inductive JVal where
  | jnull : JVal
  | jbool : Bool → JVal
  | jnum : Int → JVal
  | jstr : String → JVal
  | jarr : List JVal → JVal
  | jobj : List (String × JVal) → JVal
  deriving Repr

open JVal

/-- The backtick character (written by code point to keep source lines clean). -/
def btick : Char := Char.ofNat 96

/-- Three backticks: the Markdown fence delimiter searched by the `re.sub` pattern. -/
def fenceTicks : List Char := [btick, btick, btick]

/-- Whitespace for Python's `str.strip`/`str.lstrip` and the regex class `\s`
(ASCII part: space, tab, newline, carriage return, vertical tab, form feed). -/
def isPySpace (c : Char) : Bool :=
  c = ' ' || c = '\t' || c = '\n' || c = '\r' || c = '\x0b' || c = '\x0c'

/-- Whitespace skipped by `json.loads` between tokens (space, tab, newline, CR). -/
def isJsonWs (c : Char) : Bool :=
  c = ' ' || c = '\t' || c = '\n' || c = '\r'

/-- `dict(pairs)` semantics: inserting an existing key keeps its position and
replaces the value; a new key goes to the end. -/
def dictInsert (d : List (String × JVal)) (k : String) (v : JVal) :
    List (String × JVal) :=
  if d.any (fun p => p.1 = k) then
    d.map (fun p => if p.1 = k then (k, v) else p)
  else d ++ [(k, v)]

/-- `d.get(k, default)` on a Python dict. -/
def dictGet (d : List (String × JVal)) (k : String) (default : JVal) : JVal :=
  match d.find? (fun p => p.1 = k) with
  | some p => p.2
  | none => default

/-- Hexadecimal digit value, for `\uXXXX` string escapes. -/
def hexVal (c : Char) : Option Nat :=
  if '0' ≤ c ∧ c ≤ '9' then some (c.toNat - '0'.toNat)
  else if 'a' ≤ c ∧ c ≤ 'f' then some (c.toNat - 'a'.toNat + 10)
  else if 'A' ≤ c ∧ c ≤ 'F' then some (c.toNat - 'A'.toNat + 10)
  else none

/-- JSON string literal body: consumes characters after the opening quote up to
and including the closing quote, decoding escapes as `json.loads` does. -/
def parseJString : List Char → List Char → Except String (String × List Char)
  | acc, '"' :: rest => .ok (String.mk acc.reverse, rest)
  | acc, '\\' :: 'u' :: h1 :: h2 :: h3 :: h4 :: rest =>
    match hexVal h1, hexVal h2, hexVal h3, hexVal h4 with
    | some a, some b, some c, some d =>
      parseJString (Char.ofNat (((a * 16 + b) * 16 + c) * 16 + d) :: acc) rest
    | _, _, _, _ => .error "Invalid \\uXXXX escape"
  | acc, '\\' :: e :: rest =>
    if e = '"' then parseJString ('"' :: acc) rest
    else if e = '\\' then parseJString ('\\' :: acc) rest
    else if e = '/' then parseJString ('/' :: acc) rest
    else if e = 'b' then parseJString ('\x08' :: acc) rest
    else if e = 'f' then parseJString ('\x0c' :: acc) rest
    else if e = 'n' then parseJString ('\n' :: acc) rest
    else if e = 'r' then parseJString ('\r' :: acc) rest
    else if e = 't' then parseJString ('\t' :: acc) rest
    else .error "Invalid \\escape"
  | acc, c :: rest =>
    if c.toNat < 32 then .error "Invalid control character"
    else parseJString (c :: acc) rest
  | _, [] => .error "Unterminated string"

/-- Decimal digit test. -/
def isDigit (c : Char) : Bool := '0' ≤ c && c ≤ '9'

/-- Integer JSON number literal as matched by Python's `NUMBER_RE`, restricted
to the integer part: optional minus, then `0` or a nonzero-led digit run.
A following `.`, `e` or `E` would start a float literal, which this model
does not support (the parse is rejected there rather than misread). -/
def parseJNumber (s : List Char) : Except String (Int × List Char) :=
  let (neg, t) :=
    match s with
    | '-' :: t => (true, t)
    | _ => (false, s)
  match t with
  | [] => .error "Expecting value"
  | c :: _ =>
    if isDigit c then
      let digits := if c = '0' then [c] else t.takeWhile isDigit
      let rest := t.drop digits.length
      match rest with
      | '.' :: _ => .error "float literals are outside the modelled JSON subset"
      | 'e' :: _ => .error "float literals are outside the modelled JSON subset"
      | 'E' :: _ => .error "float literals are outside the modelled JSON subset"
      | _ =>
        let n : Nat := digits.foldl (fun a d => a * 10 + (d.toNat - '0'.toNat)) 0
        .ok (if neg then -(n : Int) else (n : Int), rest)
    else .error "Expecting value"

/-- Parsing mode for `parseJ`: a single value, the element list of an array
(after the first `[`), or the member list of an object (after the first
curly brace), carrying the elements parsed so far. -/
inductive JMode where
  | top : JMode
  | arr : List JVal → JMode
  | obj : List (String × JVal) → JMode

/-- Recursive descent over the token stream of `json.loads` (fuel-indexed so
that the definition is structural and kernel-reducible; `loads` supplies
more fuel than the input length, and every recursive call both consumes
fuel and advances in the input). -/
def parseJ : Nat → JMode → List Char → Except String (JVal × List Char)
  | 0, _, _ => .error "Expecting value"
  | fuel + 1, .top, s =>
    match s with
    | [] => .error "Expecting value"
    | '"' :: rest =>
      match parseJString [] rest with
      | .ok (str, rest') => .ok (jstr str, rest')
      | .error e => .error e
    | '\x7b' :: rest =>
      let r := rest.dropWhile isJsonWs
      match r with
      | '\x7d' :: r' => .ok (jobj [], r')
      | _ => parseJ fuel (.obj []) r
    | '[' :: rest =>
      let r := rest.dropWhile isJsonWs
      match r with
      | ']' :: r' => .ok (jarr [], r')
      | _ => parseJ fuel (.arr []) r
    | 't' :: 'r' :: 'u' :: 'e' :: rest => .ok (jbool true, rest)
    | 'f' :: 'a' :: 'l' :: 's' :: 'e' :: rest => .ok (jbool false, rest)
    | 'n' :: 'u' :: 'l' :: 'l' :: rest => .ok (jnull, rest)
    | s =>
      match parseJNumber s with
      | .ok (n, rest') => .ok (jnum n, rest')
      | .error e => .error e
  | fuel + 1, .arr acc, s =>
    match parseJ fuel .top s with
    | .error e => .error e
    | .ok (v, rest) =>
      match rest.dropWhile isJsonWs with
      | ',' :: r' => parseJ fuel (.arr (acc ++ [v])) (r'.dropWhile isJsonWs)
      | ']' :: r' => .ok (jarr (acc ++ [v]), r')
      | _ => .error "Expecting ',' delimiter"
  | fuel + 1, .obj acc, s =>
    match s with
    | '"' :: rest =>
      match parseJString [] rest with
      | .error e => .error e
      | .ok (key, rest') =>
        match rest'.dropWhile isJsonWs with
        | ':' :: r' =>
          match parseJ fuel .top (r'.dropWhile isJsonWs) with
          | .error e => .error e
          | .ok (v, rest'') =>
            let acc' := dictInsert acc key v
            match rest''.dropWhile isJsonWs with
            | ',' :: r'' =>
              match r''.dropWhile isJsonWs with
              | '"' :: _ => parseJ fuel (.obj acc') (r''.dropWhile isJsonWs)
              | _ => .error "Expecting property name enclosed in double quotes"
            | '\x7d' :: r'' => .ok (jobj acc', r'')
            | _ => .error "Expecting ',' delimiter"
        | _ => .error "Expecting ':' delimiter"
    | _ => .error "Expecting property name enclosed in double quotes"

/-- `json.loads` on the character list: optional surrounding whitespace around
exactly one value, anything further is `Extra data`. -/
def loadsL (s : List Char) : Except String JVal :=
  match parseJ (s.length + 2) .top (s.dropWhile isJsonWs) with
  | .error e => .error e
  | .ok (v, rest) =>
    if rest.dropWhile isJsonWs = [] then .ok v else .error "Extra data"

/-- `json.loads` on a string. -/
def loads (s : String) : Except String JVal := loadsL s.data

/-- Python `str.lstrip()` on a character list. -/
def pyLstripL (l : List Char) : List Char := l.dropWhile isPySpace

/-- Python `str.strip()` on a character list. -/
def pyStripL (l : List Char) : List Char :=
  ((l.dropWhile isPySpace).reverse.dropWhile isPySpace).reverse

/-- Python `str.strip()` on a string. -/
def pyStrip (s : String) : String := String.mk (pyStripL s.data)

/-- `reply.lstrip().startswith(Char.ofNat 123)`: the guard of the direct-parse
scenario. -/
def lstripStartsWithBrace (l : List Char) : Bool :=
  match pyLstripL l with
  | '\x7b' :: _ => true
  | _ => false

/-- The optional group `(?:json)?` of the first regex alternative, taken
greedily when the literal `json` follows (its tail `\s*` always succeeds, so
a successful take is never backtracked). -/
def jsonTagStrip (t : List Char) : List Char :=
  if t.take 4 = ['j', 's', 'o', 'n'] then t.drop 4 else t

/-- Match of the first regex alternative `^\s*BTK(?:json)?\s*` (BTK = the
triple-backtick fence) at position 0: `^` anchors it there, the leading `\s*`
cannot backtrack past non-whitespace, and the trailing `\s*` is greedy.
Returns the remainder of the string after the matched span, or `none` when
the alternative does not match at position 0 (it cannot match anywhere else). -/
def matchA (l : List Char) : Option (List Char) :=
  if (l.dropWhile isPySpace).take 3 = fenceTicks then
    some ((jsonTagStrip ((l.dropWhile isPySpace).drop 3)).dropWhile isPySpace)
  else none

/-- Match of the second regex alternative `\s*BTK$` at the current position:
a whitespace run, then the fence, then the end of the string — `$` also
matches just before a trailing newline. Returns the length of the matched
span (the trailing newline, when present, is not part of the match). -/
def matchBAt (l : List Char) : Option Nat :=
  if (l.dropWhile isPySpace).take 3 = fenceTicks ∧
      ((l.dropWhile isPySpace).drop 3 = [] ∨ (l.dropWhile isPySpace).drop 3 = ['\n']) then
    some ((l.takeWhile isPySpace).length + 3)
  else none

/-- Left-to-right scan of `re.sub` for the end-anchored second alternative:
the leftmost match is removed and, since any such match extends to the end of
the string (bar a final newline), nothing after it can match again. -/
def subB : List Char → List Char
  | [] => []
  | c :: rest =>
    match matchBAt (c :: rest) with
    | some n => (c :: rest).drop n
    | none => c :: subB rest

/-- The whole `re.sub(r"^\s*BTK(?:json)?\s*|\s*BTK$", "", reply, flags=re.DOTALL)`:
try the position-0-anchored first alternative, then scan the remainder for the
end-anchored second one. -/
def pyUnfence (l : List Char) : List Char :=
  match matchA l with
  | some rest => subB rest
  | none => subB l

/-- The character-by-character state machine of `_first_json_object`, started
on the suffix of the text from its first curly brace. `acc` holds the
characters consumed so far in reverse; `depth`, `in_str` and `esc` are updated
exactly as the Python assignments write them — in particular
`in_str = not (ch == DQ and not esc) or in_str` can never turn `in_str` off
again, which is the scanner's central flaw. -/
def braceScan : List Char → List Char → Nat → Bool → Bool →
    Except String JVal
  | [], _, _, _, _ => .error "no balanced object"
  | ch :: rest, acc, depth, in_str, esc =>
    if in_str then
      let esc' := !esc && ch = '\\'
      let in_str' := !(ch = '"' && !esc') || in_str
      braceScan rest (ch :: acc) depth in_str' esc'
    else if ch = '"' then braceScan rest (ch :: acc) depth true esc
    else if ch = '\x7b' then braceScan rest (ch :: acc) (depth + 1) in_str esc
    else if ch = '\x7d' then
      let d := depth - 1
      if d = 0 then loadsL (ch :: acc).reverse
      else braceScan rest (ch :: acc) d in_str esc
    else braceScan rest (ch :: acc) depth in_str esc

/-- `_first_json_object`: find the first curly brace (`text.find` returning
`-1` is the case where dropping everything before a brace leaves nothing) and
run the brace-depth scan from there; both failure modes raise
`json.JSONDecodeError`. -/
def firstJsonObject (l : List Char) : Except String JVal :=
  match l.dropWhile (fun c => c ≠ '\x7b') with
  | [] => .error "no opening brace"
  | suffix => braceScan suffix [] 0 false false

/-- Python type name of a `JVal`, for `AttributeError` messages. -/
def pyTypeName : JVal → String
  | jnull => "NoneType"
  | jbool _ => "bool"
  | jnum _ => "int"
  | jstr _ => "str"
  | jarr _ => "list"
  | jobj _ => "dict"

/-- The normalized two-field record every scenario converges on. The field
values are the Python values stored under the `summary` and `error` keys of
the returned dict (strings on every path except pass-through of parsed JSON
field values). -/
structure NormalizedResult where
  summary : JVal
  error : JVal
  deriving Repr

/-- Python truthiness, as tested by `if result["error"]:` and `if reply.strip():`. -/
def pyTruthy : JVal → Bool
  | jnull => false
  | jbool b => b
  | jnum n => n != 0
  | jstr s => s != ""
  | jarr l => !l.isEmpty
  | jobj d => !d.isEmpty

/-- Outcome of one extraction scenario inside `parse_and_normalize_reply`:
either the function finishes here (returning normally or letting an uncaught
exception escape), or it falls through to the next scenario, possibly
recording a caught `json.JSONDecodeError` into `last_err`. -/
inductive Attempt where
  | hit : Except String NormalizedResult → Attempt
  | miss : Option String → Attempt

/-- `return (DQsummaryDQ: data.get(...), DQerrorDQ: data.get(...))` applied to a
parsed value: on a dict it builds the record, on any other value the first
`.get` raises `AttributeError` (which no scenario catches). -/
def extractFields (data : JVal) : Except String NormalizedResult :=
  match data with
  | jobj d => .ok ⟨dictGet d "summary" (jstr ""), dictGet d "error" (jstr "")⟩
  | v => .error ("AttributeError: '" ++ pyTypeName v ++
      "' object has no attribute 'get'")

/-- Scenario: normal json response (direct `json.loads` when the reply starts,
after left-stripping, with a curly brace; `json.JSONDecodeError` is caught
and remembered). -/
def attemptDirect (r : List Char) : Attempt :=
  if lstripStartsWithBrace r then
    match loadsL r with
    | .ok data => .hit (extractFields data)
    | .error e => .miss (some ("direct load failed → " ++ e))
  else .miss none

/-- Scenario: fenced block (strip the Markdown fence with `re.sub`; only when
that changed the string, `json.loads` the stripped text, catching
`json.JSONDecodeError`). -/
def attemptFenced (r : List Char) : Attempt :=
  let unfenced := pyUnfence r
  if unfenced ≠ r then
    match loadsL unfenced with
    | .ok data => .hit (extractFields data)
    | .error e => .miss (some ("fenced load failed → " ++ e))
  else .miss none

/-- Scenario: get first json object if llm is too chatty (the brace-depth
scan; `json.JSONDecodeError` and `ValueError` are caught). -/
def attemptEmbedded (r : List Char) : Attempt :=
  match firstJsonObject r with
  | .ok data => .hit (extractFields data)
  | .error e => .miss (some ("embedded object failed → " ++ e))

/-- `parse_and_normalize_reply`: the four extraction scenarios in priority
order, with `last_err` carrying the most recent caught decode error into the
terminal-failure record. An `Except.error` result is an uncaught Python
exception escaping the function. -/
def parse_and_normalize_reply (reply : String) : Except String NormalizedResult :=
  let r := reply.data
  let last_err := "unknown parsing failure"
  match attemptDirect r with
  | .hit res => res
  | .miss m1 =>
    let last_err := m1.getD last_err
    match attemptFenced r with
    | .hit res => res
    | .miss m2 =>
      let last_err := m2.getD last_err
      match attemptEmbedded r with
      | .hit res => res
      | .miss m3 =>
        let last_err := m3.getD last_err
        if pyStripL r ≠ [] then .ok ⟨jstr (String.mk (pyStripL r)), jstr ""⟩
        else .ok ⟨jstr "", jstr last_err⟩

/-- `json.dumps` (compact rendering; the `indent=2` layout of the prompt is
elided — no verified property inspects the serialized text). -/
def dumps : JVal → String
  | jnull => "null"
  | jbool true => "true"
  | jbool false => "false"
  | jnum n => toString n
  | jstr s => "\"" ++ s ++ "\""
  | jarr xs => "[" ++ String.intercalate ", " (xs.attach.map (fun x => dumps x.1)) ++ "]"
  | jobj d => "\x7b" ++ String.intercalate ", "
      (d.attach.map (fun p => "\"" ++ p.1.1 ++ "\": " ++ dumps p.1.2)) ++ "\x7d"
decreasing_by
  · have h := List.sizeOf_lt_of_mem x.2
    simp only [JVal.jarr.sizeOf_spec]
    omega
  · have h := List.sizeOf_lt_of_mem p.2
    have h2 : sizeOf p.1.2 < sizeOf p.1 := by
      obtain ⟨⟨a, b⟩, hp⟩ := p
      simp
    simp only [JVal.jobj.sizeOf_spec]
    omega

/-- The instruction prefix of the first prompt sent by `summarise`. -/
def promptPrefix : String :=
  "Please summarise the following knowledge-graph segment:\n\n"

/-- The fixed corrective re-prompt sent when a normalized result carries a
truthy `error`. -/
def correctivePrompt : String :=
  "Respond ONLY with valid JSON: \x7b\"summary\":\"...\", \"error\":\"\"\x7d"

/-- `summarise(nodes)`: one initial prompt, then the `for _ in range(2)` loop
unrolled. Iteration 0 normalizes the first reply and, on a truthy error,
sends the corrective prompt; iteration 1 normalizes the second reply and, on
a truthy error, sends the corrective prompt AGAIN (its reply is never read)
before the loop ends and the terminal record is returned. The opaque agent
is modelled by `replies`, giving the reply to the k-th `send`; the returned
list collects the prompts sent, in order. An `Except.error` is an uncaught
exception escaping `summarise`. -/
def summarise (nodes : JVal) (replies : Nat → String) :
    Except String NormalizedResult × List String :=
  let p0 := promptPrefix ++ dumps nodes
  match parse_and_normalize_reply (replies 0) with
  | .error e => (.error e, [p0])
  | .ok r0 =>
    if pyTruthy r0.error then
      match parse_and_normalize_reply (replies 1) with
      | .error e => (.error e, [p0, correctivePrompt])
      | .ok r1 =>
        if pyTruthy r1.error then
          (.ok ⟨jstr "", jstr "agent returned unparsable output twice"⟩,
            [p0, correctivePrompt, correctivePrompt])
        else (.ok r1, [p0, correctivePrompt])
    else (.ok r0, [p0])

/-- `isinstance(data, list) and data` — the validation applied in the
`--summarize` branch of `main`. -/
def isNonEmptyList : JVal → Bool
  | jarr (_ :: _) => true
  | _ => false

/-- Validation outcome on raw standard input, for stating the input-rejection
property: `true` iff the text parses to a non-empty JSON array. -/
def validStdin (stdin : String) : Bool :=
  match loads stdin with
  | .ok v => isNonEmptyList v
  | .error _ => false

/-- The body of the source's `main` (the name `main` is reserved by Lean for
entry points), from `if "--summarize" in sys.argv:` on. The first
flag models the `--summarize` CLI switch, the second `sys.stdin.isatty()`
(the interactive branch is out of scope and produces no result record).
Output: the record printed to stdout (or `none` in interactive mode), and
the prompts sent to the agent. The `except Exception` handlers turn any
exception — bad JSON on stdin, the `ValueError` for invalid input, or
anything escaping `summarise` — into an error record via `str(err)`. -/
def agentMain (summarizeFlag stdinIsTTY : Bool) (stdin : String)
    (replies : Nat → String) : Option NormalizedResult × List String :=
  if summarizeFlag then
    match loads stdin with
    | .error e => (some ⟨jstr "", jstr e⟩, [])
    | .ok data =>
      if isNonEmptyList data then
        match summarise data replies with
        | (.ok r, ps) => (some r, ps)
        | (.error e, ps) => (some ⟨jstr "", jstr e⟩, ps)
      else (some ⟨jstr "", jstr "Input must be a non-empty JSON array of nodes"⟩, [])
  else
    if stdinIsTTY then (none, [])
    else
      match loads stdin with
      | .error e => (some ⟨jstr "", jstr e⟩, [])
      | .ok data =>
        match summarise data replies with
        | (.ok r, ps) => (some r, ps)
        | (.error e, ps) => (some ⟨jstr "", jstr e⟩, ps)

/-! Helper lemmas: every decode-error message produced by the `json.loads`
model is non-empty (Python's `str(JSONDecodeError)` always carries at least
the message and a position suffix). -/

set_option linter.unnecessarySeqFocus false in
theorem parseJString_err (acc s : List Char) :
    ∀ e, parseJString acc s = .error e → e ≠ "" := by
  induction acc, s using parseJString.induct <;> intro e h <;>
    simp only [parseJString] at h <;>
    (repeat' split at h) <;>
    (try simp only [Except.error.injEq] at h) <;>
    (try (subst h; decide)) <;>
    (try (cases h)) <;>
    (try solve_by_elim) <;>
    (simp_all only [Option.some.injEq]; solve_by_elim)

set_option linter.unnecessarySeqFocus false in
set_option linter.unusedTactic false in
theorem parseJNumber_err (s : List Char) :
    ∀ e, parseJNumber s = .error e → e ≠ "" := by
  intro e h
  unfold parseJNumber at h
  (repeat' split at h) <;>
    (try simp only [Except.error.injEq] at h) <;>
    (try (subst h; decide)) <;>
    (try (cases h)) <;>
    (split at h <;>
      (try simp only [Except.error.injEq] at h) <;>
      (try (subst h; decide)) <;>
      (try (cases h)))

set_option linter.unnecessarySeqFocus false in
set_option maxHeartbeats 2000000 in
theorem parseJ_err (fuel : Nat) :
    ∀ m s e, parseJ fuel m s = .error e → e ≠ "" := by
  induction fuel with
  | zero =>
    intro m s e h
    simp only [parseJ, Except.error.injEq] at h
    subst h; decide
  | succ n ih =>
    intro m s e h
    cases m <;> simp only [parseJ] at h <;>
      (repeat' split at h) <;>
      (try simp only [Except.error.injEq] at h) <;>
      (try (subst h; decide)) <;>
      (try (cases h)) <;>
      solve_by_elim [parseJString_err, parseJNumber_err]

set_option linter.unnecessarySeqFocus false in
theorem loads_err (s : String) : ∀ e, loads s = .error e → e ≠ "" := by
  intro e h
  unfold loads loadsL at h
  (repeat' split at h) <;>
    (try simp only [Except.error.injEq] at h) <;>
    (try (subst h; decide)) <;>
    (try (cases h)) <;>
    solve_by_elim [parseJ_err]

/-- Occurrence of the triple-backtick fence anywhere in the list. -/
def hasTripleTick : List Char → Bool
  | c1 :: c2 :: c3 :: rest =>
    if c1 = btick ∧ c2 = btick ∧ c3 = btick then true
    else hasTripleTick (c2 :: c3 :: rest)
  | _ => false

theorem hasTripleTick_cons (c : Char) (l : List Char)
    (h : hasTripleTick l = true) : hasTripleTick (c :: l) = true := by
  match l with
  | [] => simp [hasTripleTick] at h
  | [x] => simp [hasTripleTick] at h
  | x :: y :: t =>
    rw [hasTripleTick]
    split
    · rfl
    · exact h

theorem hasTripleTick_dropWhile (p : Char → Bool) (l : List Char)
    (h : hasTripleTick (l.dropWhile p) = true) : hasTripleTick l = true := by
  induction l with
  | nil => simp [List.dropWhile] at h; exact h
  | cons c t ih =>
    rw [List.dropWhile] at h
    by_cases hp : p c
    · simp only [hp] at h
      exact hasTripleTick_cons c t (ih h)
    · simp only [Bool.not_eq_true] at hp
      simp only [hp] at h
      exact h

theorem hasTripleTick_of_take (l : List Char) (h : l.take 3 = fenceTicks) :
    hasTripleTick l = true := by
  match l with
  | [] => simp [fenceTicks] at h
  | [a] => simp [fenceTicks] at h
  | [a, b] => simp [fenceTicks] at h
  | a :: b :: c :: t =>
    simp only [List.take, fenceTicks, List.cons.injEq, and_true] at h
    rw [hasTripleTick, if_pos h]

theorem matchA_none (l : List Char) (h : hasTripleTick l = false) :
    matchA l = none := by
  unfold matchA
  split
  · next hc =>
    exact absurd (hasTripleTick_dropWhile _ _ (hasTripleTick_of_take _ hc)) (by simp [h])
  · rfl

theorem matchBAt_none (l : List Char) (h : hasTripleTick l = false) :
    matchBAt l = none := by
  unfold matchBAt
  split
  · next hc =>
    exact absurd (hasTripleTick_dropWhile _ _ (hasTripleTick_of_take _ hc.1)) (by simp [h])
  · rfl

theorem hasTripleTick_tail (c : Char) (l : List Char)
    (h : hasTripleTick (c :: l) = false) : hasTripleTick l = false := by
  by_contra hc
  simp only [Bool.not_eq_false] at hc
  rw [hasTripleTick_cons c l hc] at h
  cases h

theorem subB_eq_self (l : List Char) (h : hasTripleTick l = false) :
    subB l = l := by
  induction l with
  | nil => rfl
  | cons c t ih =>
    rw [subB, matchBAt_none _ h, ih (hasTripleTick_tail c t h)]

theorem pyUnfence_eq_self (l : List Char) (h : hasTripleTick l = false) :
    pyUnfence l = l := by
  rw [pyUnfence, matchA_none _ h, subB_eq_self _ h]

theorem btick_mem_of_h3t (l : List Char) (h : hasTripleTick l = true) :
    btick ∈ l := by
  induction l with
  | nil => simp [hasTripleTick] at h
  | cons c1 t ih =>
    rcases t with _ | ⟨c2, t2⟩
    · simp [hasTripleTick] at h
    rcases t2 with _ | ⟨c3, rest⟩
    · simp [hasTripleTick] at h
    rw [hasTripleTick] at h
    split at h
    · next hc => exact hc.1 ▸ List.mem_cons_self _ _
    · exact List.mem_cons_of_mem _ (ih h)

theorem h3t_false_of_all_pyspace (l : List Char) (h : l.all isPySpace = true) :
    hasTripleTick l = false := by
  by_contra hc
  simp only [Bool.not_eq_false] at hc
  have hm := btick_mem_of_h3t l hc
  have := List.all_eq_true.mp h _ hm
  exact absurd this (by decide)

theorem lstripStartsWithBrace_eq_false (l : List Char) (hb : '\x7b' ∉ l) :
    lstripStartsWithBrace l = false := by
  unfold lstripStartsWithBrace pyLstripL
  split
  · next heq =>
    exfalso
    apply hb
    have hmem : '\x7b' ∈ l.dropWhile isPySpace := by
      rw [heq]; exact List.mem_cons_self _ _
    exact List.Sublist.mem hmem (List.dropWhile_sublist _)
  · rfl

theorem firstJsonObject_no_brace (l : List Char) (hb : '\x7b' ∉ l) :
    firstJsonObject l = .error "no opening brace" := by
  have hd : l.dropWhile (fun c => c ≠ '\x7b') = [] := by
    rw [List.dropWhile_eq_nil_iff]
    intro x hx
    simp only [ne_eq, decide_not, Bool.not_eq_true', decide_eq_false_iff_not,
      Decidable.not_not]
    exact fun hxx => hb (hxx ▸ hx)
  unfold firstJsonObject
  rw [hd]

theorem attemptDirect_skip (l : List Char) (h : lstripStartsWithBrace l = false) :
    attemptDirect l = .miss none := by
  simp [attemptDirect, h]

theorem attemptFenced_skip (l : List Char) (h : pyUnfence l = l) :
    attemptFenced l = .miss none := by
  unfold attemptFenced
  rw [h]
  dsimp only
  simp

/-- On a reply with no curly brace and no triple-backtick fence the first
three scenarios all fall through (the third recording its decode error), so
the result is the plain-text fallback or the terminal record. -/
theorem normalize_no_brace_no_fence (s : String)
    (hb : '\x7b' ∉ s.data) (hf : hasTripleTick s.data = false) :
    parse_and_normalize_reply s =
      if pyStripL s.data ≠ [] then .ok ⟨jstr (String.mk (pyStripL s.data)), jstr ""⟩
      else .ok ⟨jstr "", jstr ("embedded object failed → " ++ "no opening brace")⟩ := by
  unfold parse_and_normalize_reply
  dsimp only
  rw [attemptDirect_skip _ (lstripStartsWithBrace_eq_false _ hb),
    attemptFenced_skip _ (pyUnfence_eq_self _ hf)]
  dsimp only
  unfold attemptEmbedded
  rw [firstJsonObject_no_brace _ hb]
  rfl

theorem all_pyspace_strip_nil (l : List Char) (h : l.all isPySpace = true) :
    pyStripL l = [] := by
  have hd : l.dropWhile isPySpace = [] :=
    List.dropWhile_eq_nil_iff.mpr (fun x hx => List.all_eq_true.mp h x hx)
  unfold pyStripL
  rw [hd]
  rfl

theorem all_pyspace_no_brace (l : List Char) (h : l.all isPySpace = true) :
    '\x7b' ∉ l := by
  intro hm
  exact absurd (List.all_eq_true.mp h _ hm) (by decide)

/-- Observer: the `error` field of a normally-returned record (`jnull` for an
escaped exception); used to separate unequal results. -/
def errField : Except String NormalizedResult → JVal
  | .ok r => r.error
  | .error _ => jnull

/-- Observer: the `summary` field of a normally-returned record. -/
def sumField : Except String NormalizedResult → JVal
  | .ok r => r.summary
  | .error _ => jnull

/-- Whether a Python value is a `str`. -/
def isStr : JVal → Bool
  | jstr _ => true
  | _ => false

/-- Claim C9: for the empty string and for every whitespace-only string, the
Reply Normalizer returns an empty summary together with a non-empty diagnostic
error describing the last extraction failure encountered (the embedded-object
scan failing for want of an opening brace). -/
theorem c9_blank_reply_terminal_error (s : String)
    (h : s.data.all isPySpace = true) :
    parse_and_normalize_reply s =
      .ok ⟨jstr "", jstr "embedded object failed → no opening brace"⟩ ∧
    "embedded object failed → no opening brace" ≠ "" := by
  constructor
  · rw [normalize_no_brace_no_fence s (all_pyspace_no_brace _ h)
        (h3t_false_of_all_pyspace _ h), all_pyspace_strip_nil _ h,
      if_neg (by simp)]
    rfl
  · decide

theorem c9_blank_reply_terminal_error_witness :
    "".data.all isPySpace = true ∧ " \t\n".data.all isPySpace = true ∧
      (parse_and_normalize_reply " \t\n" =
        .ok ⟨jstr "", jstr "embedded object failed → no opening brace"⟩ ∧
      "embedded object failed → no opening brace" ≠ "") :=
  ⟨by decide, by decide, c9_blank_reply_terminal_error " \t\n" (by decide)⟩

/-- Claim C8 (amended): for every string that contains no curly brace and no
triple-backtick fence and is non-empty after trimming, the Reply Normalizer
returns the trimmed string as the summary and an empty error. -/
theorem c8_plain_text_fallback (s : String) (hb : '\x7b' ∉ s.data)
    (hf : hasTripleTick s.data = false) (hs : pyStripL s.data ≠ []) :
    parse_and_normalize_reply s = .ok ⟨jstr (pyStrip s), jstr ""⟩ := by
  rw [normalize_no_brace_no_fence s hb hf, if_pos hs]
  rfl

theorem c8_plain_text_fallback_witness :
    ('\x7b' ∉ "  hello world ".data) ∧
      hasTripleTick "  hello world ".data = false ∧
      pyStripL "  hello world ".data ≠ [] ∧
      parse_and_normalize_reply "  hello world " =
        .ok ⟨jstr (pyStrip "  hello world "), jstr ""⟩ :=
  ⟨by decide, by decide, by decide,
    c8_plain_text_fallback "  hello world " (by decide) (by decide) (by decide)⟩

/-- Claim C8 as stated is false: the whitespace-only reply `" "` is a
non-empty string without a curly brace, yet the Normalizer returns a non-empty
error rather than `(trimmed, "")`; and the fenced scalar reply surrounding `5`
contains no curly brace either, yet the Normalizer raises `AttributeError`
instead of returning a record at all. -/
theorem c8_no_brace_claim_counterexample :
    " " ≠ "" ∧ ('\x7b' ∉ " ".data) ∧
      parse_and_normalize_reply " " ≠ .ok ⟨jstr (pyStrip " "), jstr ""⟩ ∧
    ('\x7b' ∉ "```json\n5\n```".data) ∧ "```json\n5\n```" ≠ "" ∧
      parse_and_normalize_reply "```json\n5\n```" =
        .error "AttributeError: 'int' object has no attribute 'get'" := by
  refine ⟨by decide, by decide, ?_, by decide, by decide, rfl⟩
  intro h
  have h2 : JVal.jstr "embedded object failed → no opening brace" = JVal.jstr "" :=
    congrArg errField h
  exact absurd (JVal.jstr.inj h2) (by decide)

/-- Scenario 1 in full: a reply that left-strips to an opening brace and
`json.loads`-parses to a dict is answered immediately with that dict's
`summary`/`error` fields (defaults empty), whatever the `error` value is. -/
theorem normalize_direct_parse (s : String) (d : List (String × JVal))
    (hg : lstripStartsWithBrace s.data = true)
    (hl : loads s = .ok (jobj d)) :
    parse_and_normalize_reply s =
      .ok ⟨dictGet d "summary" (jstr ""), dictGet d "error" (jstr "")⟩ := by
  have hl' : loadsL s.data = .ok (jobj d) := hl
  unfold parse_and_normalize_reply
  dsimp only
  unfold attemptDirect
  rw [if_pos hg, hl']
  rfl

/-- A list ending in a closing brace, followed by a newline and the fence,
admits no match of the end-anchored alternative at its head: the whitespace
run cannot cross the closing brace, so the candidate span would have to keep
at least five characters after the leading whitespace. -/
theorem matchBAt_none_before_fence (u : List Char) (hm : '\x7d' ∈ u) :
    matchBAt (u ++ '\n' :: fenceTicks) = none := by
  have hne : u.dropWhile isPySpace ≠ [] := by
    intro hnil
    exact absurd (List.dropWhile_eq_nil_iff.mp hnil _ hm) (by decide)
  unfold matchBAt
  rw [if_neg]
  intro hc
  have hr : (u ++ '\n' :: fenceTicks).dropWhile isPySpace =
      u.dropWhile isPySpace ++ '\n' :: fenceTicks := by
    rw [List.dropWhile_append, if_neg (by simp [hne])]
  have hlen : 1 ≤ (u.dropWhile isPySpace).length :=
    Nat.one_le_iff_ne_zero.mpr (fun hz => hne (List.eq_nil_of_length_eq_zero hz))
  rcases hc.2 with h3 | h3 <;>
  · have hc3 := congrArg List.length h3
    rw [List.length_drop, hr, List.length_append] at hc3
    simp only [List.length_cons, List.length_nil, fenceTicks] at hc3
    omega

/-- Removing the end-anchored match from `body ++ newline ++ fence` leaves
exactly `body`, provided `body` ends in a closing brace. -/
theorem subB_append_fence (l : List Char) (hne : l ≠ [])
    (hl : l.getLast? = some '\x7d') :
    subB (l ++ '\n' :: fenceTicks) = l := by
  induction l with
  | nil => exact absurd rfl hne
  | cons c t ih =>
    rcases t with _ | ⟨c2, t2⟩
    · have hc : c = '\x7d' := by
        simp only [List.getLast?_singleton, Option.some.injEq] at hl
        exact hl
      subst hc
      decide
    · have hm : '\x7d' ∈ c :: c2 :: t2 :=
        List.mem_of_mem_getLast? hl
      have hnb := matchBAt_none_before_fence (c :: c2 :: t2) hm
      rw [List.getLast?_cons_cons] at hl
      have iht := ih (by simp) hl
      simp only [List.cons_append] at hnb iht ⊢
      rw [subB, hnb, iht]

theorem lstripSWB_cons_false (c : Char) (t : List Char)
    (h1 : isPySpace c = false) (h2 : c ≠ '\x7b') :
    lstripStartsWithBrace (c :: t) = false := by
  unfold lstripStartsWithBrace pyLstripL
  rw [List.dropWhile_cons, if_neg (by simp [h1])]
  split
  · next heq => exact absurd (List.cons.inj heq).1 h2
  · rfl

/-- The `re.sub` fence-stripping on a fenced block around a JSON-object body:
the first alternative removes the opening fence (with an optional `json` tag
and the following whitespace), the second removes the closing fence, leaving
exactly the body. -/
theorem pyUnfence_wrapped (tag : List Char)
    (htag : tag = [] ∨ tag = ['j', 's', 'o', 'n'])
    (l : List Char) (hh : l.head? = some '\x7b') (hlast : l.getLast? = some '\x7d') :
    pyUnfence (fenceTicks ++ (tag ++ ('\n' :: (l ++ ('\n' :: fenceTicks))))) = l := by
  obtain ⟨lt, rfl⟩ : ∃ lt, l = '\x7b' :: lt := by
    cases l with
    | nil => cases hh
    | cons a t => exact ⟨t, by rw [(Option.some.inj hh)]⟩
  have hdw : ∀ X : List Char,
      ('\n' :: ('\x7b' :: lt ++ X)).dropWhile isPySpace = '\x7b' :: lt ++ X := by
    intro X
    rw [List.dropWhile_cons, if_pos (by decide), List.cons_append,
      List.dropWhile_cons, if_neg (by decide)]
  have hfd : ∀ Y : List Char,
      (fenceTicks ++ Y).dropWhile isPySpace = fenceTicks ++ Y := by
    intro Y
    simp only [fenceTicks, List.cons_append]
    rw [List.dropWhile_cons, if_neg (by decide)]
  have hA : matchA (fenceTicks ++ (tag ++ ('\n' :: ('\x7b' :: lt ++ ('\n' :: fenceTicks))))) =
      some ('\x7b' :: lt ++ ('\n' :: fenceTicks)) := by
    unfold matchA
    rw [hfd, List.take_left' (by decide), if_pos rfl, List.drop_left' (by decide)]
    rcases htag with h | h <;> subst h
    · rw [List.nil_append, jsonTagStrip, if_neg (by simp [List.take]), hdw]
    · rw [jsonTagStrip, if_pos (List.take_left' (by decide)),
        List.drop_left' (by decide), hdw]
  rw [pyUnfence, hA]
  have hsb := subB_append_fence ('\x7b' :: lt) (by simp) hlast
  simp only [List.cons_append] at hsb
  exact hsb

/-- Claim C7 (amended): wrapping a (trimmed) valid JSON object in a Markdown
fence whose opening delimiter carries no tag or the tag `json` does not change
the normalized result: the fenced-block scenario strips the fence and parses
the same object that the direct-parse scenario reads from the bare body. -/
theorem c7_fenced_unwrap_json_tag (tag body : String) (d : List (String × JVal))
    (htag : tag = "" ∨ tag = "json")
    (hh : body.data.head? = some '\x7b')
    (hlast : body.data.getLast? = some '\x7d')
    (hl : loads body = .ok (jobj d)) :
    parse_and_normalize_reply ("```" ++ tag ++ "\n" ++ body ++ "\n```") =
      parse_and_normalize_reply body := by
  have htagd : tag.data = [] ∨ tag.data = ['j', 's', 'o', 'n'] := by
    rcases htag with h | h <;> subst h
    · exact Or.inl (by decide)
    · exact Or.inr (by decide)
  have hW : ("```" ++ tag ++ "\n" ++ body ++ "\n```").data =
      fenceTicks ++ (tag.data ++ ('\n' :: (body.data ++ ('\n' :: fenceTicks)))) := by
    simp only [String.data_append, List.append_assoc, List.singleton_append,
      List.cons_append]
    rw [show (fenceTicks : List Char) = ['\x60', '\x60', '\x60'] from by decide]
    simp only [List.cons_append, List.nil_append, List.append_assoc]
  have hunf : pyUnfence ("```" ++ tag ++ "\n" ++ body ++ "\n```").data = body.data := by
    rw [hW]
    exact pyUnfence_wrapped tag.data htagd body.data hh hlast
  have hne : body.data ≠ ("```" ++ tag ++ "\n" ++ body ++ "\n```").data := by
    intro heq
    have hlen := congrArg List.length heq
    rw [hW] at hlen
    simp only [List.length_append, List.length_cons, fenceTicks,
      List.length_nil] at hlen
    omega
  have hb1 : lstripStartsWithBrace ("```" ++ tag ++ "\n" ++ body ++ "\n```").data = false := by
    rw [hW]
    simp only [fenceTicks, List.cons_append]
    exact lstripSWB_cons_false btick _ (by decide) (by decide)
  have hgb : lstripStartsWithBrace body.data = true := by
    obtain ⟨bt, hbt⟩ : ∃ bt, body.data = '\x7b' :: bt := by
      cases hbd : body.data with
      | nil => rw [hbd] at hh; cases hh
      | cons a t => rw [hbd] at hh; exact ⟨t, by rw [(Option.some.inj hh)]⟩
    rw [hbt]
    unfold lstripStartsWithBrace pyLstripL
    rw [List.dropWhile_cons, if_neg (by decide)]
    rfl
  have hl' : loadsL body.data = .ok (jobj d) := hl
  rw [normalize_direct_parse body d hgb hl]
  unfold parse_and_normalize_reply
  dsimp only
  rw [attemptDirect_skip _ hb1]
  dsimp only
  unfold attemptFenced
  dsimp only
  rw [hunf, if_pos hne, hl']
  rfl

theorem c7_fenced_unwrap_json_tag_witness :
    ("json" = "" ∨ "json" = "json") ∧
    "\x7b\"summary\":\"s\",\"error\":\"\"\x7d".data.head? = some '\x7b' ∧
    "\x7b\"summary\":\"s\",\"error\":\"\"\x7d".data.getLast? = some '\x7d' ∧
    loads "\x7b\"summary\":\"s\",\"error\":\"\"\x7d" =
      .ok (jobj [("summary", jstr "s"), ("error", jstr "")]) ∧
    parse_and_normalize_reply
        ("```" ++ "json" ++ "\n" ++ "\x7b\"summary\":\"s\",\"error\":\"\"\x7d" ++ "\n```") =
      parse_and_normalize_reply "\x7b\"summary\":\"s\",\"error\":\"\"\x7d" :=
  ⟨Or.inr rfl, by decide, by decide, rfl,
    c7_fenced_unwrap_json_tag "json" "\x7b\"summary\":\"s\",\"error\":\"\"\x7d"
      [("summary", jstr "s"), ("error", jstr "")] (Or.inr rfl)
      (by decide) (by decide) rfl⟩

/-- Claim C7 as stated is false for language tags other than `json`: the
regex strips only an optional literal `json`, so a fence tagged `js` is not
removed, every structured scenario fails (the embedded-object scan by the
sticky-`in_str` flaw), and the whole reply is returned as a plain-text
summary instead of the object's fields. -/
theorem c7_language_tag_counterexample :
    parse_and_normalize_reply "```js\n\x7b\"summary\":\"x\",\"error\":\"\"\x7d\n```" ≠
      parse_and_normalize_reply "\x7b\"summary\":\"x\",\"error\":\"\"\x7d" := by
  intro h
  have h2 : JVal.jstr "```js\n\x7b\"summary\":\"x\",\"error\":\"\"\x7d\n```" =
      JVal.jstr "x" := congrArg sumField h
  exact absurd (JVal.jstr.inj h2) (by decide)

/-- Claim C6: a reply that left-strips to an opening brace and parses whole
as a JSON object is answered by the direct-parse scenario with that object's
`summary` and `error` values, absent keys defaulting to the empty string, and
the normalizer returns this immediately whether or not the error is empty. -/
theorem c6_direct_parse (s : String) (d : List (String × JVal))
    (hg : lstripStartsWithBrace s.data = true)
    (hl : loads s = .ok (jobj d)) :
    parse_and_normalize_reply s =
      .ok ⟨dictGet d "summary" (jstr ""), dictGet d "error" (jstr "")⟩ :=
  normalize_direct_parse s d hg hl

theorem c6_direct_parse_witness :
    lstripStartsWithBrace "  \x7b\"error\":\"boom\"\x7d".data = true ∧
    loads "  \x7b\"error\":\"boom\"\x7d" = .ok (jobj [("error", jstr "boom")]) ∧
    parse_and_normalize_reply "  \x7b\"error\":\"boom\"\x7d" =
      .ok ⟨dictGet [("error", jstr "boom")] "summary" (jstr ""),
        dictGet [("error", jstr "boom")] "error" (jstr "")⟩ :=
  ⟨by decide, rfl,
    c6_direct_parse "  \x7b\"error\":\"boom\"\x7d" [("error", jstr "boom")]
      (by decide) rfl⟩

/-- Claim C1 is contradicted by the code: on the spec's own example the
brace-depth scan of `_first_json_object` enters string mode at the first
double quote and the assignment `in_str = not (...) or in_str` can never
clear the flag again, so every later brace is ignored, no balanced object is
found, and the normalizer falls through to the plain-text fallback, returning
the entire reply — not the embedded object's summary `x`. -/
theorem c1_embedded_extraction_fails :
    firstJsonObject "Sure, here you go: \x7b\"summary\":\"x\",\"error\":\"\"\x7d".data =
      .error "no balanced object" ∧
    parse_and_normalize_reply "Sure, here you go: \x7b\"summary\":\"x\",\"error\":\"\"\x7d" =
      .ok ⟨jstr "Sure, here you go: \x7b\"summary\":\"x\",\"error\":\"\"\x7d", jstr ""⟩ ∧
    sumField (parse_and_normalize_reply
        "Sure, here you go: \x7b\"summary\":\"x\",\"error\":\"\"\x7d") ≠ jstr "x" := by
  refine ⟨rfl, rfl, ?_⟩
  intro h
  have h2 : JVal.jstr "Sure, here you go: \x7b\"summary\":\"x\",\"error\":\"\"\x7d" =
      JVal.jstr "x" := h
  exact absurd (JVal.jstr.inj h2) (by decide)

/-- Claim C3 is contradicted by the code: the Reply Normalizer is not total.
A fenced code block whose content parses as a JSON array makes the
fenced-block scenario call `.get` on the list returned by `json.loads`, and
the resulting `AttributeError` is caught by none of the scenarios' handlers,
so it escapes the function. -/
theorem c3_normalizer_raises_on_fenced_array :
    parse_and_normalize_reply "```json\n[1, 2]\n```" =
      .error "AttributeError: 'list' object has no attribute 'get'" := rfl

/-- Claim C5 (amended): every result `summarise` returns normally is a record
with exactly the two fields `summary` and `error` whose values are taken
verbatim from the parsed JSON (so not necessarily strings); on the success
path the `error` field is falsy, and on terminal failure the summary is the
empty string and the error the fixed non-empty message. -/
theorem c5_result_shape (nodes : JVal) (replies : Nat → String)
    (r : NormalizedResult) (ps : List String)
    (h : summarise nodes replies = (.ok r, ps)) :
    pyTruthy r.error = false ∨
      (r.summary = jstr "" ∧
        r.error = jstr "agent returned unparsable output twice") := by
  unfold summarise at h
  dsimp only at h
  cases h0 : parse_and_normalize_reply (replies 0) with
  | error e => rw [h0] at h; simp at h
  | ok r0 =>
    rw [h0] at h
    dsimp only at h
    by_cases ht : pyTruthy r0.error = true
    · rw [if_pos ht] at h
      cases h1 : parse_and_normalize_reply (replies 1) with
      | error e => rw [h1] at h; simp at h
      | ok r1 =>
        rw [h1] at h
        dsimp only at h
        by_cases ht1 : pyTruthy r1.error = true
        · rw [if_pos ht1] at h
          simp only [Prod.mk.injEq, Except.ok.injEq] at h
          right
          rw [← h.1]
          exact ⟨rfl, rfl⟩
        · rw [if_neg ht1] at h
          simp only [Prod.mk.injEq, Except.ok.injEq] at h
          left
          rw [← h.1]
          simpa using ht1
    · rw [if_neg ht] at h
      simp only [Prod.mk.injEq, Except.ok.injEq] at h
      left
      rw [← h.1]
      simpa using ht

theorem c5_result_shape_witness :
    summarise jnull (fun _ => "fine") =
      (.ok ⟨jstr "fine", jstr ""⟩, [promptPrefix ++ dumps jnull]) ∧
    (pyTruthy (NormalizedResult.error ⟨jstr "fine", jstr ""⟩) = false ∨
      (NormalizedResult.summary ⟨jstr "fine", jstr ""⟩ = jstr "" ∧
        NormalizedResult.error ⟨jstr "fine", jstr ""⟩ =
          jstr "agent returned unparsable output twice")) :=
  ⟨rfl, c5_result_shape jnull (fun _ => "fine") ⟨jstr "fine", jstr ""⟩
    [promptPrefix ++ dumps jnull] rfl⟩

/-- Claim C5 as stated is false on the string-typing part: a reply whose
JSON sets `summary` to the number 5 is passed through verbatim, so the
coordinator returns a record whose summary field is an `int`, not a
string. -/
theorem c5_nonstring_summary_counterexample :
    sumField (summarise jnull (fun _ => "\x7b\"summary\": 5, \"error\": \"\"\x7d")).1 =
      jnum 5 ∧
    isStr (sumField
      (summarise jnull (fun _ => "\x7b\"summary\": 5, \"error\": \"\"\x7d")).1) = false :=
  ⟨rfl, rfl⟩

/-- Claim C2 is contradicted by the code: when both normalizations carry a
truthy error, each of the two loop iterations sends the corrective prompt —
the second one's reply is never read — so the agent is invoked three times
(initial plus two corrective), not at most twice. -/
theorem c2_three_sends_on_double_failure :
    (summarise (jarr []) (fun _ => "")).2.length = 3 ∧
    (summarise (jarr []) (fun _ => "")).2 =
      [promptPrefix ++ dumps (jarr []), correctivePrompt, correctivePrompt] ∧
    (summarise (jarr []) (fun _ => "")).1 =
      .ok ⟨jstr "", jstr "agent returned unparsable output twice"⟩ :=
  ⟨rfl, rfl, rfl⟩

/-- Claim C10: whenever the first normalized result carries a truthy error,
the prompt of the second agent call is the fixed constant string — for every
`nodes` value, so it carries no serialized node data. -/
theorem c10_corrective_prompt_constant (nodes : JVal) (replies : Nat → String)
    (r : NormalizedResult)
    (h0 : parse_and_normalize_reply (replies 0) = .ok r)
    (ht : pyTruthy r.error = true) :
    (summarise nodes replies).2.get? 1 = some correctivePrompt ∧
    correctivePrompt =
      "Respond ONLY with valid JSON: \x7b\"summary\":\"...\", \"error\":\"\"\x7d" := by
  refine ⟨?_, rfl⟩
  unfold summarise
  dsimp only
  rw [h0]
  dsimp only
  rw [if_pos ht]
  cases parse_and_normalize_reply (replies 1) with
  | error e => rfl
  | ok r1 =>
    dsimp only
    by_cases ht1 : pyTruthy r1.error = true
    · rw [if_pos ht1]
      rfl
    · rw [if_neg ht1]
      rfl

theorem c10_corrective_prompt_constant_witness :
    parse_and_normalize_reply "" =
      .ok ⟨jstr "", jstr "embedded object failed → no opening brace"⟩ ∧
    pyTruthy (jstr "embedded object failed → no opening brace") = true ∧
    ((summarise (jarr [jstr "node data"]) (fun _ => "")).2.get? 1 =
        some correctivePrompt ∧
      correctivePrompt =
        "Respond ONLY with valid JSON: \x7b\"summary\":\"...\", \"error\":\"\"\x7d") :=
  ⟨rfl, by decide,
    c10_corrective_prompt_constant (jarr [jstr "node data"]) (fun _ => "")
      ⟨jstr "", jstr "embedded object failed → no opening brace"⟩ rfl (by decide)⟩

/-- Claim C4 (amended): under the `--summarize` flag, every standard input
that does not parse to a non-empty JSON array — invalid JSON, a non-array,
or the empty array — is rejected immediately with an empty summary and a
non-empty error, and no agent call is made. -/
theorem c4_flag_mode_rejects_invalid_input (stdin : String) (tty : Bool)
    (replies : Nat → String) (h : validStdin stdin = false) :
    ∃ msg, agentMain true tty stdin replies = (some ⟨jstr "", jstr msg⟩, []) ∧
      msg ≠ "" := by
  unfold agentMain
  rw [if_pos rfl]
  cases hl : loads stdin with
  | error e => exact ⟨e, rfl, loads_err stdin e hl⟩
  | ok data =>
    have hv : isNonEmptyList data = false := by
      unfold validStdin at h
      rw [hl] at h
      exact h
    dsimp only
    rw [if_neg (by simp [hv])]
    exact ⟨"Input must be a non-empty JSON array of nodes", rfl, by decide⟩

theorem c4_flag_mode_rejects_invalid_input_witness :
    validStdin "[]" = false ∧
    (∃ msg, agentMain true false "[]" (fun _ => "ok") =
      (some ⟨jstr "", jstr msg⟩, []) ∧ msg ≠ "") :=
  ⟨by decide,
    c4_flag_mode_rejects_invalid_input "[]" false (fun _ => "ok") (by decide)⟩

/-- Claim C4 as stated is false for the piped auto mode: without the
`--summarize` flag and with stdin not a tty, the code runs no input
validation, so the empty array reaches `summarise`, one agent call is made,
and the returned record's error is empty rather than a non-empty
description. -/
theorem c4_piped_mode_empty_array_calls_agent :
    (agentMain false false "[]" (fun _ => "ok")).2.length = 1 ∧
    agentMain false false "[]" (fun _ => "ok") =
      (some ⟨jstr "ok", jstr ""⟩, [promptPrefix ++ dumps (jarr [])]) :=
  ⟨rfl, rfl⟩
